import Mathlib

/-!
Verification of the CSS selector expression builder (`cssSelectorBuilder`)
from the repository's object-tasks source file.  The JavaScript source is
embedded shallowly: the `SelectorBuilder` state (fields `order` and
`selector`) becomes a Lean structure, the prototype methods become pure
functions, and a thrown `Error` becomes the `error` branch of `Except`
carrying a value that, like a plain JS `Error`, holds only a message string.
-/

namespace CoreJs

/-- Shallow embedding of the source's `Utils.capitalize`:
`str[0].toUpperCase() + str.slice(1)`, expressed on the character list
(`str[0]` is the head character, `str.slice(1)` the tail).  On the empty
string the JS original faults on `undefined`; it is never applied to one. -/
def Utils.capitalize (str : String) : String :=
  match str.data with
  | [] => ""
  | c :: cs => String.mk (c.toUpper :: cs)

/-- Shallow embedding of the source's `Utils.joinColon`: `list.join(', ')`. -/
def Utils.joinColon (list : List String) : String :=
  String.intercalate ", " list

/-- Shallow embedding of the source's `Utils.joinStart`: capitalizes the
first entry, keeps the middle entries (`list.slice(1, -2)`), joins the last
two (`list.slice(-2)`) with `" and "`, and comma-joins the result. -/
def Utils.joinStart (list : List String) : String :=
  let first := list.headD ""
  let rest := (list.drop 1).take (list.length - 3)
  let lastTwo := list.drop (list.length - 2)
  String.intercalate ", " ([Utils.capitalize first] ++ rest
    ++ [String.intercalate " and " lastTwo])

/-- The six selector kinds of the source's `Selectors` typedef.  The JS name
`class` is a Lean keyword, embedded here as `class_`. -/
inductive SelectorKind : Type
  | element
  | id
  | class_
  | attr
  | pseudoClass
  | pseudoElement
deriving DecidableEq, Repr

/-- The source's `SelectorConfig` typedef: one row of the ordered selector
table.  `toString` is the row's rendering function. -/
structure SelectorConfig : Type where
  name : SelectorKind
  unique : Bool
  toString : String → String
  errorName : String

/-- The source's `SelectorBuilder.ORDERED_SELECTORS` table, in order; a
row's rank is its index in this list. -/
def ORDERED_SELECTORS : List SelectorConfig :=
  [ { name := .element, unique := true,
      toString := fun s => s, errorName := "element" },
    { name := .id, unique := true,
      toString := fun s => "#" ++ s, errorName := "id" },
    { name := .class_, unique := false,
      toString := fun s => "." ++ s, errorName := "class" },
    { name := .attr, unique := false,
      toString := fun s => "[" ++ s ++ "]", errorName := "attribute" },
    { name := .pseudoClass, unique := false,
      toString := fun s => ":" ++ s, errorName := "pseudo-class" },
    { name := .pseudoElement, unique := true,
      toString := fun s => "::" ++ s, errorName := "pseudo-element" } ]

/-- The expression state held by a `SelectorBuilder` instance: the
constructor `function SelectorBuilder({ order = -1, selector = '' } = {})`.
`order` is the rank of the last appended kind, `-1` when none. -/
structure SelectorBuilder : Type where
  order : Int := -1
  selector : String := ""
deriving DecidableEq, Repr

/-- A thrown JS `Error`: a plain value carrying only its message string
(the source always throws `new Error(msg)` with no subclass or tag). -/
structure JsError : Type where
  message : String
deriving DecidableEq, Repr

/-- The rank of a kind: the index of its row in `ORDERED_SELECTORS`
(the `forEach` index used when the prototype methods are installed). -/
def rankOf (k : SelectorKind) : Int :=
  Int.ofNat (ORDERED_SELECTORS.findIdx (fun c => c.name = k))

/-- The table row of a kind (lookup by `name` in `ORDERED_SELECTORS`). -/
def configOf (k : SelectorKind) : SelectorConfig :=
  (ORDERED_SELECTORS.find? (fun c => c.name = k)).getD
    { name := k, unique := true, toString := fun s => s, errorName := "" }

/-- Shallow embedding of the prototype method `check(order, isUnique)`:
first the order check (`this.order > order` throws `WRONG_ORDER`), then the
uniqueness check (`isUnique && this.order === order` throws
`UNIQUES_REPEAT`), both messages assembled from the table as in the source. -/
def check (self : SelectorBuilder) (order : Int) (isUnique : Bool) :
    Except JsError Unit :=
  if self.order > order then
    .error ⟨"Selector parts should be arranged in the following order: "
      ++ Utils.joinColon (ORDERED_SELECTORS.map SelectorConfig.errorName)⟩
  else if isUnique ∧ self.order = order then
    .error ⟨Utils.joinStart
        ((ORDERED_SELECTORS.filter SelectorConfig.unique).map
          SelectorConfig.errorName)
      ++ " should not occur more then one time inside the selector"⟩
  else
    .ok ()

/-- The prototype method `stringify()`. -/
def stringify (self : SelectorBuilder) : String :=
  self.selector

/-- The prototype method `combine(selector1, combinator, selector2)`:
a fresh instance whose `selector` is the two texts around the combinator,
with `order` left at its default `-1`. -/
def combine (selector1 : SelectorBuilder) (combinator : String)
    (selector2 : SelectorBuilder) : SelectorBuilder :=
  { selector := selector1.selector ++ " " ++ combinator ++ " "
      ++ selector2.selector }

/-- The source's `selectorMaker({ order, unique, toString })`: the returned
`selectorHandler(value)` runs `check` and, if it does not throw, builds a
new instance with the rendered fragment appended. -/
def selectorMaker (order : Int) (unique : Bool) (toStr : String → String)
    (self : SelectorBuilder) (value : String) :
    Except JsError SelectorBuilder :=
  match check self order unique with
  | .error e => .error e
  | .ok _ => .ok { order := order, selector := self.selector ++ toStr value }

/-- The prototype method installed for kind `k` by the `forEach` over
`ORDERED_SELECTORS`: `selectorMaker` at the kind's rank, repeat flag and
rendering function. -/
def appendKind (k : SelectorKind) (self : SelectorBuilder) (value : String) :
    Except JsError SelectorBuilder :=
  selectorMaker (rankOf k) (configOf k).unique (configOf k).toString self value

/-- The exported `cssSelectorBuilder` facade: a default instance. -/
def cssSelectorBuilder : SelectorBuilder := {}

/-- The exact text of the source's `WRONG_ORDER` message. -/
def WRONG_ORDER : String :=
  "Selector parts should be arranged in the following order: element, id, class, attribute, pseudo-class, pseudo-element"

/-- The exact text of the source's `UNIQUES_REPEAT` message. -/
def UNIQUES_REPEAT : String :=
  "Element, id and pseudo-element should not occur more then one time inside the selector"

end CoreJs

deriving instance DecidableEq for Except

namespace CoreJs

lemma check_eq_error_order (self : SelectorBuilder) (order : Int) (u : Bool)
    (h : self.order > order) : check self order u = .error ⟨WRONG_ORDER⟩ := by
  unfold check
  rw [if_pos h]
  exact congrArg Except.error (by decide)

lemma check_eq_error_dup (self : SelectorBuilder) (order : Int) (u : Bool)
    (heq : self.order = order) (hu : u = true) :
    check self order u = .error ⟨UNIQUES_REPEAT⟩ := by
  unfold check
  rw [if_neg (by omega), if_pos ⟨hu, heq⟩]
  exact congrArg Except.error (by decide)

lemma check_eq_ok (self : SelectorBuilder) (order : Int) (u : Bool)
    (hle : self.order ≤ order) (hne : u = true → self.order ≠ order) :
    check self order u = .ok () := by
  unfold check
  rw [if_neg (by omega), if_neg (by tauto)]

lemma check_ok_inv (self : SelectorBuilder) (order : Int) (u : Bool)
    (h : check self order u = .ok ()) :
    self.order ≤ order ∧ (u = true → self.order ≠ order) := by
  unfold check at h
  split_ifs at h with h1 h2
  exact ⟨by omega, fun hu heq => h2 ⟨hu, heq⟩⟩

lemma check_error_inv (self : SelectorBuilder) (order : Int) (u : Bool)
    (err : JsError) (h : check self order u = .error err) :
    (self.order > order ∧ err = ⟨WRONG_ORDER⟩) ∨
    (self.order = order ∧ u = true ∧ err = ⟨UNIQUES_REPEAT⟩) := by
  unfold check at h
  split_ifs at h with h1 h2
  · left
    refine ⟨h1, ?_⟩
    have hmsg := (Except.error.injEq _ _).mp h
    rw [← hmsg]
    decide
  · right
    refine ⟨h2.2, h2.1, ?_⟩
    have hmsg := (Except.error.injEq _ _).mp h
    rw [← hmsg]
    decide

lemma appendKind_of_check_ok (k : SelectorKind) (self : SelectorBuilder)
    (v : String) (h : check self (rankOf k) (configOf k).unique = .ok ()) :
    appendKind k self v =
      .ok { order := rankOf k,
            selector := self.selector ++ (configOf k).toString v } := by
  unfold appendKind selectorMaker
  rw [h]

lemma appendKind_of_check_error (k : SelectorKind) (self : SelectorBuilder)
    (v : String) (err : JsError)
    (h : check self (rankOf k) (configOf k).unique = .error err) :
    appendKind k self v = .error err := by
  unfold appendKind selectorMaker
  rw [h]

lemma appendKind_ok_inv (k : SelectorKind) (self : SelectorBuilder)
    (v : String) (e' : SelectorBuilder) (h : appendKind k self v = .ok e') :
    check self (rankOf k) (configOf k).unique = .ok () ∧
    e' = { order := rankOf k,
           selector := self.selector ++ (configOf k).toString v } := by
  unfold appendKind selectorMaker at h
  cases hc : check self (rankOf k) (configOf k).unique with
  | error err => rw [hc] at h; exact absurd h (by simp)
  | ok u => cases u; rw [hc] at h; simp at h; exact ⟨rfl, h.symm⟩

lemma appendKind_error_inv (k : SelectorKind) (self : SelectorBuilder)
    (v : String) (err : JsError) (h : appendKind k self v = .error err) :
    check self (rankOf k) (configOf k).unique = .error err := by
  unfold appendKind selectorMaker at h
  cases hc : check self (rankOf k) (configOf k).unique with
  | error e => rw [hc] at h; simp at h; rw [h]
  | ok u => cases u; rw [hc] at h; exact absurd h (by simp)

lemma rankOf_nonneg (k : SelectorKind) : 0 ≤ rankOf k := by
  cases k <;> decide

/-- The rendering of each kind, written out per the spec: element keeps the
value, id prefixes `#`, class prefixes `.`, attr brackets with `[` `]`,
pseudo-class prefixes `:`, pseudo-element prefixes `::`. -/
def renderSpec (k : SelectorKind) (value : String) : String :=
  match k with
  | .element => value
  | .id => "#" ++ value
  | .class_ => "." ++ value
  | .attr => "[" ++ value ++ "]"
  | .pseudoClass => ":" ++ value
  | .pseudoElement => "::" ++ value

/-- The rank of each kind, written out per the spec: element=0, id=1,
class=2, attribute=3, pseudo-class=4, pseudo-element=5. -/
def rankSpec (k : SelectorKind) : Int :=
  match k with
  | .element => 0
  | .id => 1
  | .class_ => 2
  | .attr => 3
  | .pseudoClass => 4
  | .pseudoElement => 5

/-- C1: a successful append of any of the six kinds yields an expression
whose text is the previous text with the kind's rendered fragment appended
with no separator (element keeps the value, id prefixes `#`, class `.`,
attr `[`…`]`, pseudo-class `:`, pseudo-element `::`), and whose last rank
is the appended kind's rank. -/
theorem append_ok_text_and_rank (e e' : SelectorBuilder) (k : SelectorKind)
    (v : String) (h : appendKind k e v = .ok e') :
    e'.selector = e.selector ++ renderSpec k v ∧ e'.order = rankSpec k := by
  obtain ⟨-, rfl⟩ := appendKind_ok_inv k e v e' h
  cases k <;> exact ⟨rfl, rfl⟩

theorem append_ok_text_and_rank_witness :
    (SelectorBuilder.mk 1 "#main").selector =
      cssSelectorBuilder.selector ++ renderSpec .id "main" ∧
    (SelectorBuilder.mk 1 "#main").order = rankSpec .id :=
  append_ok_text_and_rank cssSelectorBuilder ⟨1, "#main"⟩ .id "main" (by decide)

/-- C2: appending a kind whose rank is strictly below the expression's
current last rank fails with the order-violation error whose message lists
all six labels in canonical order, comma-joined; a kind whose rank is at
least the current last rank passes the order check (its `check` either
succeeds or fails only with the uniqueness message). -/
theorem order_check_behaviour (e : SelectorBuilder) (k : SelectorKind)
    (v : String) :
    (rankOf k < e.order → appendKind k e v = .error ⟨WRONG_ORDER⟩) ∧
    (e.order ≤ rankOf k →
      check e (rankOf k) (configOf k).unique = .ok () ∨
      check e (rankOf k) (configOf k).unique = .error ⟨UNIQUES_REPEAT⟩) := by
  constructor
  · intro hlt
    exact appendKind_of_check_error k e v _
      (check_eq_error_order e (rankOf k) (configOf k).unique hlt)
  · intro hle
    cases hc : check e (rankOf k) (configOf k).unique with
    | ok u => cases u; exact Or.inl rfl
    | error err =>
      rcases check_error_inv e (rankOf k) (configOf k).unique err hc with
        ⟨hgt, -⟩ | ⟨-, -, rfl⟩
      · omega
      · exact Or.inr rfl

theorem order_check_behaviour_witness :
    appendKind .id ⟨2, ".c"⟩ "x" = .error ⟨WRONG_ORDER⟩ ∧
    (check ⟨0, "a"⟩ (rankOf .id) (configOf .id).unique = .ok () ∨
     check ⟨0, "a"⟩ (rankOf .id) (configOf .id).unique =
       .error ⟨UNIQUES_REPEAT⟩) :=
  ⟨(order_check_behaviour ⟨2, ".c"⟩ .id "x").1 (by decide),
   (order_check_behaviour ⟨0, "a"⟩ .id "x").2 (by decide)⟩

/-- C3: after a successful append of kind `k`, appending `k` again
immediately fails with the uniqueness error when `k` is non-repeatable,
and succeeds when `k` is repeatable, with both rendered occurrences
present in the resulting text. -/
theorem repeat_append_behaviour (e e' : SelectorBuilder) (k : SelectorKind)
    (v w : String) (h : appendKind k e v = .ok e') :
    ((configOf k).unique = true → appendKind k e' w = .error ⟨UNIQUES_REPEAT⟩) ∧
    ((configOf k).unique = false →
      appendKind k e' w =
        .ok { order := rankOf k,
              selector := e.selector ++ (configOf k).toString v
                ++ (configOf k).toString w }) := by
  obtain ⟨-, rfl⟩ := appendKind_ok_inv k e v e' h
  constructor
  · intro hu
    exact appendKind_of_check_error k _ w _ (check_eq_error_dup _ _ _ rfl hu)
  · intro hu
    have hc : check
        (SelectorBuilder.mk (rankOf k) (e.selector ++ (configOf k).toString v))
        (rankOf k) (configOf k).unique = .ok () :=
      check_eq_ok _ _ _ le_rfl (fun htrue => absurd htrue (by simp [hu]))
    rw [appendKind_of_check_ok k
      (SelectorBuilder.mk (rankOf k) (e.selector ++ (configOf k).toString v))
      w hc]

theorem repeat_append_behaviour_witness :
    ((configOf SelectorKind.element).unique = true →
      appendKind .element ⟨0, "div"⟩ "span" = .error ⟨UNIQUES_REPEAT⟩) ∧
    ((configOf SelectorKind.element).unique = false →
      appendKind .element ⟨0, "div"⟩ "span" =
        .ok { order := rankOf .element,
              selector := cssSelectorBuilder.selector
                ++ (configOf .element).toString "div"
                ++ (configOf .element).toString "span" }) :=
  repeat_append_behaviour cssSelectorBuilder ⟨0, "div"⟩ .element "div" "span"
    (by decide)

/-- C4: combining two expressions always succeeds and yields the left text,
a space, the combinator, a space, and the right text, with the last rank
reset to the sentinel `-1`. -/
theorem combine_text_and_reset (l r : SelectorBuilder) (c : String) :
    (combine l c r).selector = l.selector ++ " " ++ c ++ " " ++ r.selector ∧
    (combine l c r).order = -1 :=
  ⟨rfl, rfl⟩

/-- C7: combination is associative in text layout — both nestings render to
the flat `A c1 B c2 C` text with single spaces around each combinator. -/
theorem combine_assoc_text (a b c : SelectorBuilder) (c1 c2 : String) :
    stringify (combine (combine a c1 b) c2 c) =
      a.selector ++ " " ++ c1 ++ " " ++ b.selector ++ " " ++ c2 ++ " "
        ++ c.selector ∧
    stringify (combine a c1 (combine b c2 c)) =
      stringify (combine (combine a c1 b) c2 c) := by
  constructor
  · rfl
  · simp [stringify, combine, String.append_assoc]

/-- C8: combining resets the rank sentinel to `-1`, so any append to a
combined expression succeeds (even a non-repeatable kind that already
occurs in the combined text); the uniqueness check can only ever fire when
the appended kind's rank exactly equals the expression's last rank. -/
theorem combined_reset_append (e1 e2 : SelectorBuilder) (c : String)
    (k : SelectorKind) (v : String) (e : SelectorBuilder) (u : Bool) :
    (combine e1 c e2).order = -1 ∧
    appendKind k (combine e1 c e2) v =
      .ok { order := rankOf k,
            selector := (combine e1 c e2).selector
              ++ (configOf k).toString v } ∧
    (e.order ≠ rankOf k → check e (rankOf k) u ≠ .error ⟨UNIQUES_REPEAT⟩) := by
  refine ⟨rfl, ?_, ?_⟩
  · apply appendKind_of_check_ok
    apply check_eq_ok
    · show (-1 : Int) ≤ rankOf k
      have := rankOf_nonneg k
      omega
    · intro _
      show (-1 : Int) ≠ rankOf k
      have := rankOf_nonneg k
      omega
  · intro hne hcontra
    rcases check_error_inv e (rankOf k) u _ hcontra with ⟨-, habs⟩ | ⟨heq, -, -⟩
    · exact absurd habs (by decide)
    · exact hne heq

theorem combined_reset_append_witness :
    (combine ⟨0, "a"⟩ "+" ⟨0, "b"⟩).order = -1 ∧
    appendKind .element (combine ⟨0, "a"⟩ "+" ⟨0, "b"⟩) "c" =
      .ok { order := rankOf .element,
            selector := (combine ⟨0, "a"⟩ "+" ⟨0, "b"⟩).selector
              ++ (configOf .element).toString "c" } ∧
    check ⟨-1, "a + b"⟩ (rankOf .element) true ≠ .error ⟨UNIQUES_REPEAT⟩ :=
  ⟨(combined_reset_append ⟨0, "a"⟩ ⟨0, "b"⟩ "+" .element "c" ⟨-1, "a + b"⟩
      true).1,
   (combined_reset_append ⟨0, "a"⟩ ⟨0, "b"⟩ "+" .element "c" ⟨-1, "a + b"⟩
      true).2.1,
   (combined_reset_append ⟨0, "a"⟩ ⟨0, "b"⟩ "+" .element "c" ⟨-1, "a + b"⟩
      true).2.2 (by decide)⟩

/-- C9: the order violation always carries the exact `WRONG_ORDER` message
text, the uniqueness violation always carries the exact `UNIQUES_REPEAT`
message text, and no other error message can come out of `check`. -/
theorem error_message_texts (self : SelectorBuilder) (order : Int)
    (u : Bool) :
    (self.order > order → check self order u = .error ⟨WRONG_ORDER⟩) ∧
    (u = true → self.order = order →
      check self order u = .error ⟨UNIQUES_REPEAT⟩) ∧
    (∀ err, check self order u = .error err →
      err = ⟨WRONG_ORDER⟩ ∨ err = ⟨UNIQUES_REPEAT⟩) := by
  refine ⟨check_eq_error_order self order u,
    fun hu heq => check_eq_error_dup self order u heq hu,
    fun err herr => ?_⟩
  rcases check_error_inv self order u err herr with ⟨-, h⟩ | ⟨-, -, h⟩
  · exact Or.inl h
  · exact Or.inr h

theorem error_message_texts_witness :
    check ⟨2, ".c"⟩ 1 false = .error ⟨WRONG_ORDER⟩ ∧
    check ⟨0, "div"⟩ 0 true = .error ⟨UNIQUES_REPEAT⟩ ∧
    (JsError.mk WRONG_ORDER = ⟨WRONG_ORDER⟩ ∨
     JsError.mk WRONG_ORDER = ⟨UNIQUES_REPEAT⟩) :=
  ⟨(error_message_texts ⟨2, ".c"⟩ 1 false).1 (by decide),
   (error_message_texts ⟨0, "div"⟩ 0 true).2.1 rfl rfl,
   (error_message_texts ⟨2, ".c"⟩ 1 false).2.2 ⟨WRONG_ORDER⟩
     ((error_message_texts ⟨2, ".c"⟩ 1 false).1 (by decide))⟩

/-- C10: errors are plain values determined by their message alone (two
errors with equal messages are equal), every failing append carries one of
the two fixed message texts, and those two texts differ — so the two
violation kinds are distinguishable only by the message string. -/
theorem errors_plain (a b : JsError) (k : SelectorKind) (e : SelectorBuilder)
    (v : String) (err : JsError) :
    (a.message = b.message → a = b) ∧
    (appendKind k e v = .error err →
      err.message = WRONG_ORDER ∨ err.message = UNIQUES_REPEAT) ∧
    WRONG_ORDER ≠ UNIQUES_REPEAT := by
  refine ⟨?_, ?_, by decide⟩
  · intro hmsg
    cases a
    cases b
    simpa using hmsg
  · intro herr
    have hc := appendKind_error_inv k e v err herr
    rcases check_error_inv e (rankOf k) (configOf k).unique err hc with
      ⟨-, rfl⟩ | ⟨-, -, rfl⟩
    · exact Or.inl rfl
    · exact Or.inr rfl

theorem errors_plain_witness :
    JsError.mk "m" = JsError.mk "m" ∧
    ((JsError.mk WRONG_ORDER).message = WRONG_ORDER ∨
     (JsError.mk WRONG_ORDER).message = UNIQUES_REPEAT) :=
  ⟨(errors_plain ⟨"m"⟩ ⟨"m"⟩ .id ⟨2, ".c"⟩ "x" ⟨WRONG_ORDER⟩).1 rfl,
   (errors_plain ⟨"m"⟩ ⟨"m"⟩ .id ⟨2, ".c"⟩ "x" ⟨WRONG_ORDER⟩).2.1 (by decide)⟩

/-- Expressions reachable from the `cssSelectorBuilder` entry point by any
sequence of successful appends and combinations, together with the list of
kinds whose rendered fragments make up the expression's text, in textual
order. -/
inductive Reachable : SelectorBuilder → List SelectorKind → Prop
  | entry : Reachable cssSelectorBuilder []
  | append {e : SelectorBuilder} {ks : List SelectorKind} {k : SelectorKind}
      {v : String} {e' : SelectorBuilder} :
      Reachable e ks → appendKind k e v = Except.ok e' →
      Reachable e' (ks ++ [k])
  | comb {e1 e2 : SelectorBuilder} {ks1 ks2 : List SelectorKind} {c : String} :
      Reachable e1 ks1 → Reachable e2 ks2 →
      Reachable (combine e1 c e2) (ks1 ++ ks2)

/-- Expressions reachable from the entry point by successful appends only. -/
inductive ReachableA : SelectorBuilder → List SelectorKind → Prop
  | entry : ReachableA cssSelectorBuilder []
  | append {e : SelectorBuilder} {ks : List SelectorKind} {k : SelectorKind}
      {v : String} {e' : SelectorBuilder} :
      ReachableA e ks → appendKind k e v = Except.ok e' →
      ReachableA e' (ks ++ [k])

/-- No non-repeatable kind occurs more than once among the kinds of an
expression's text. -/
def noDupUniques (ks : List SelectorKind) : Prop :=
  ∀ k, (configOf k).unique = true → ks.count k ≤ 1

/-- The kinds of an expression's text occur in non-decreasing rank order. -/
def ranksOrdered (ks : List SelectorKind) : Prop :=
  List.Chain' (· ≤ ·) (ks.map rankOf)

lemma reachableA_inv (e : SelectorBuilder) (ks : List SelectorKind)
    (h : ReachableA e ks) :
    ranksOrdered ks ∧ noDupUniques ks ∧ ∀ k ∈ ks, rankOf k ≤ e.order := by
  induction h with
  | entry =>
    refine ⟨by simp [ranksOrdered], fun k _ => by simp, by simp⟩
  | @append e ks k v e' hr hok ih =>
    obtain ⟨hchain, hdup, hle⟩ := ih
    obtain ⟨hck, rfl⟩ := appendKind_ok_inv k e v e' hok
    obtain ⟨hle', hne⟩ := check_ok_inv e (rankOf k) (configOf k).unique hck
    refine ⟨?_, ?_, ?_⟩
    · show List.Chain' (· ≤ ·) ((ks ++ [k]).map rankOf)
      rw [List.map_append]
      apply hchain.append (List.chain'_singleton _)
      intro x hx y hy
      have hy' : y = rankOf k := by
        have := hy
        simp at this
        omega
      obtain ⟨hnn, hxe⟩ := List.mem_getLast?_eq_getLast hx
      have hxmem : x ∈ ks.map rankOf := hxe ▸ List.getLast_mem hnn
      obtain ⟨k2, hk2, rfl⟩ := List.mem_map.mp hxmem
      subst hy'
      exact le_trans (hle k2 hk2) hle'
    · intro k2 hk2
      rw [List.count_append]
      by_cases hkk : k2 = k
      · subst hkk
        have hnotin : k2 ∉ ks := by
          intro hmem
          exact hne hk2 (le_antisymm hle' (hle k2 hmem))
        rw [List.count_eq_zero.mpr hnotin]
        simp
      · have hz : List.count k2 [k] = 0 := by
          simp [List.count_singleton', Ne.symm hkk]
        have h1 := hdup k2 hk2
        omega
    · intro k2 hmem
      rcases List.mem_append.mp hmem with hin | hlast
      · exact le_trans (hle k2 hin) hle'
      · have : k2 = k := by simpa using hlast
        subst this
        exact le_rfl

/-- C5 counterexample: combining two single-element expressions is a
successful operation sequence, yet the combined text holds the
non-repeatable `element` kind twice, refuting the invariant as stated
over expressions reachable through both append and combine. -/
theorem reachable_invariant_counterexample :
    Reachable (SelectorBuilder.mk (-1) "a + b")
      [SelectorKind.element, SelectorKind.element] ∧
    ¬ (noDupUniques [SelectorKind.element, SelectorKind.element] ∧
       ranksOrdered [SelectorKind.element, SelectorKind.element]) := by
  constructor
  · have ha : Reachable (SelectorBuilder.mk 0 "a") [SelectorKind.element] :=
      Reachable.append Reachable.entry
        ((by decide) : appendKind SelectorKind.element cssSelectorBuilder "a" =
          Except.ok (SelectorBuilder.mk 0 "a"))
    have hb : Reachable (SelectorBuilder.mk 0 "b") [SelectorKind.element] :=
      Reachable.append Reachable.entry
        ((by decide) : appendKind SelectorKind.element cssSelectorBuilder "b" =
          Except.ok (SelectorBuilder.mk 0 "b"))
    exact Reachable.comb (c := "+") ha hb
  · intro hinv
    exact absurd (hinv.1 SelectorKind.element (by decide)) (by decide)

/-- C5 (amended): for every expression reachable from the entry point by
successful append operations alone (no combination), no non-repeatable
kind occurs twice among the kinds of its text and the kinds occur in
non-decreasing rank order.  (The unamended claim, which also allows
combine steps, is refuted: a combination can place two non-repeatable
kinds, or out-of-rank-order kinds, side by side in one text.) -/
theorem appendOnly_invariant (e : SelectorBuilder) (ks : List SelectorKind)
    (h : ReachableA e ks) : noDupUniques ks ∧ ranksOrdered ks :=
  ⟨(reachableA_inv e ks h).2.1, (reachableA_inv e ks h).1⟩

theorem appendOnly_invariant_witness :
    noDupUniques [SelectorKind.id, SelectorKind.class_] ∧
    ranksOrdered [SelectorKind.id, SelectorKind.class_] :=
  appendOnly_invariant ⟨2, "#main.container"⟩
    [SelectorKind.id, SelectorKind.class_]
    (ReachableA.append
      (ReachableA.append ReachableA.entry
        ((by decide) : appendKind SelectorKind.id cssSelectorBuilder "main" =
          Except.ok (SelectorBuilder.mk 1 "#main")))
      ((by decide) : appendKind SelectorKind.class_
          (SelectorBuilder.mk 1 "#main") "container" =
        Except.ok (SelectorBuilder.mk 2 "#main.container")))

/-- Object-level view of an append call: builder instances live in a store
of allocated objects addressed by index.  `selectorHandler` reads the
receiver, runs `check`, and only then executes `new this.constructor(...)`,
which allocates a fresh object; a throw happens before any allocation.
The store is returned unchanged alongside the thrown error. -/
def appendOnStore (store : List SelectorBuilder) (ref : Nat)
    (k : SelectorKind) (v : String) :
    List SelectorBuilder × Except JsError Nat :=
  match store[ref]? with
  | none => (store, .error ⟨"TypeError"⟩)
  | some self =>
    match appendKind k self v with
    | .error e => (store, .error e)
    | .ok e' => (store ++ [e'], .ok store.length)

/-- Object-level view of a combine call: reads both operands and allocates
the fresh combined instance. -/
def combineOnStore (store : List SelectorBuilder) (r1 : Nat) (c : String)
    (r2 : Nat) : List SelectorBuilder × Except JsError Nat :=
  match store[r1]?, store[r2]? with
  | some s1, some s2 => (store ++ [combine s1 c s2], .ok store.length)
  | _, _ => (store, .error ⟨"TypeError"⟩)

/-- C6: append and combine never touch existing objects.  Every
previously allocated cell — the receiver included — reads back unchanged
after either call; a failed append returns the store exactly as it was,
allocating nothing; a successful call's returned reference is a fresh
address that held no object before the call. -/
theorem operations_preserve_existing (store : List SelectorBuilder)
    (ref : Nat) (k : SelectorKind) (v : String) (r1 r2 : Nat) (c : String) :
    (∀ i, i < store.length →
      (appendOnStore store ref k v).1[i]? = store[i]? ∧
      (combineOnStore store r1 c r2).1[i]? = store[i]?) ∧
    (∀ err, (appendOnStore store ref k v).2 = .error err →
      (appendOnStore store ref k v).1 = store) ∧
    (∀ n, (appendOnStore store ref k v).2 = .ok n →
      n = store.length ∧ store[n]? = none) := by
  have happ : ∀ (l : List SelectorBuilder) (x : SelectorBuilder) (i : Nat),
      i < l.length → (l ++ [x])[i]? = l[i]? := by
    intro l x i hi
    rw [List.getElem?_append_left hi]
  refine ⟨fun i hi => ⟨?_, ?_⟩, ?_, ?_⟩
  · cases h1 : store[ref]? with
    | none => simp [appendOnStore, h1]
    | some self =>
      cases h2 : appendKind k self v with
      | error e => simp [appendOnStore, h1, h2]
      | ok e' =>
        simp only [appendOnStore, h1, h2]
        exact happ store e' i hi
  · cases h1 : store[r1]? with
    | none => simp [combineOnStore, h1]
    | some s1 =>
      cases h2 : store[r2]? with
      | none => simp [combineOnStore, h1, h2]
      | some s2 =>
        simp only [combineOnStore, h1, h2]
        exact happ store (combine s1 c s2) i hi
  · intro err herr
    cases h1 : store[ref]? with
    | none => simp [appendOnStore, h1]
    | some self =>
      cases h2 : appendKind k self v with
      | error e => simp [appendOnStore, h1, h2]
      | ok e' =>
        rw [appendOnStore] at herr
        simp [h1, h2] at herr
  · intro n hn
    cases h1 : store[ref]? with
    | none =>
      rw [appendOnStore] at hn
      simp [h1] at hn
    | some self =>
      cases h2 : appendKind k self v with
      | error e =>
        rw [appendOnStore] at hn
        simp [h1, h2] at hn
      | ok e' =>
        rw [appendOnStore] at hn
        simp [h1, h2] at hn
        constructor
        · omega
        · have : n = store.length := by omega
          subst this
          simp

theorem operations_preserve_existing_witness :
    ((appendOnStore [cssSelectorBuilder] 0 .id "main").1[0]? =
        [cssSelectorBuilder][0]? ∧
      (combineOnStore [cssSelectorBuilder] 0 " " 0).1[0]? =
        [cssSelectorBuilder][0]?) ∧
    ((appendOnStore [⟨2, ".c"⟩] 0 .id "x").2 = .error ⟨WRONG_ORDER⟩ →
      (appendOnStore [⟨2, ".c"⟩] 0 .id "x").1 = [⟨2, ".c"⟩]) ∧
    ((appendOnStore [cssSelectorBuilder] 0 .id "main").2 = .ok 1 →
      1 = [cssSelectorBuilder].length ∧ [cssSelectorBuilder][1]? = none) :=
  ⟨(operations_preserve_existing [cssSelectorBuilder] 0 .id "main" 0 0 " ").1
      0 (by decide),
   (operations_preserve_existing [⟨2, ".c"⟩] 0 .id "x" 0 0 " ").2.1
      ⟨WRONG_ORDER⟩,
   (operations_preserve_existing [cssSelectorBuilder] 0 .id "main" 0 0
      " ").2.2 1⟩

end CoreJs
